import Mathlib

/-!
Verification of `web2pdf.py` (WebPagetoPDF): a shallow embedding in Lean 4 of
the pure computational core of the script — URL-to-filename derivation,
site-rule parsing and host matching, CAPTCHA signal classification, the
raster-to-PDF pagination geometry, and the per-URL capture control flow —
together with proofs of the behavioural properties stated in the design spec.

Strings are modelled as `List Char` so that every operation is an executable
structural function mirroring the Python string primitives it embeds.
-/

namespace Web2Pdf

/-- Strings modelled as lists of characters. -/
abbrev Str := List Char

/-- Python `\s` / `str.strip()` whitespace for the ASCII inputs handled here. -/
def isSpaceChar (c : Char) : Bool :=
  c = ' ' || c = '\t' || c = '\n' || c = '\r' || c = '\x0b' || c = '\x0c'

/-- ASCII lower-casing of one character, as Python `str.lower` acts on ASCII. -/
def lowerChar (c : Char) : Char :=
  if h : 65 ≤ c.toNat ∧ c.toNat ≤ 90 then
    ⟨⟨c.toNat + 32, by omega⟩, by
      constructor
      · show c.toNat + 32 < 55296
        omega⟩
  else c

/-- Python `str.lower` on a whole string. -/
def lowerStr (s : Str) : Str := s.map lowerChar

/-- Drop the trailing run of characters satisfying `p`. -/
def dropTrailing (p : Char → Bool) (s : Str) : Str :=
  ((s.reverse).dropWhile p).reverse

/-- Python `str.strip()` with no argument (strip whitespace from both ends). -/
def pyStripWs (s : Str) : Str := dropTrailing isSpaceChar (s.dropWhile isSpaceChar)

/-- Python `str.strip(c)` for a single strip character. -/
def pyStripChar (c : Char) (s : Str) : Str :=
  dropTrailing (· = c) (s.dropWhile (· = c))

/-- Python `str.endswith(suffix)`. -/
def strEndsWith (s suffix : Str) : Bool :=
  decide (suffix.length ≤ s.length) && decide (s.drop (s.length - suffix.length) = suffix)

/-- Python `needle in hay` substring test. -/
def isSubstr (needle : Str) : Str → Bool
  | [] => decide (needle = [])
  | c :: rest => needle.isPrefixOf (c :: rest) || isSubstr needle rest

/-- Python `str.replace(old, new)` for single characters. -/
def replaceChar (old new : Char) (s : Str) : Str :=
  s.map (fun c => if c = old then new else c)

/-! ## RasterPaginator (`screenshot_to_singlepage_pdf`, `screenshot_to_paginated_letter_pdf`)

`CSS_PX_PER_INCH = 96`, `PDF_POINTS_PER_INCH = 72`; a PDF page is modelled by
its page size in points.  The paginated builder is parameterised by the
computed per-page band height in pixels (`native_px_per_page` before the
`max(1, ·)` clamp, which is applied inside, exactly as in the source). -/

/-- The function `csspx_to_pdfpt`: CSS pixels to PDF points at 72/96 = 0.75 pt/px. -/
def csspx_to_pdfpt (px : ℚ) : ℚ := px * (72 / 96)

/-- A produced PDF page, identified by its page size `(width, height)` in points. -/
abbrev PdfPage := ℚ × ℚ

/-- US Letter page size in points, as `reportlab.lib.pagesizes.letter`. -/
def letterPage : PdfPage := (612, 792)

/-- The function `screenshot_to_singlepage_pdf`: one page whose size is the image size in points. -/
def screenshot_to_singlepage_pdf (width_px height_px : ℕ) : List PdfPage :=
  [(csspx_to_pdfpt width_px, csspx_to_pdfpt height_px)]

/-- The band-slicing loop of `screenshot_to_paginated_letter_pdf`:
from slice top `y`, emit the pixel height of each consecutive band
`min(height_px, y + B) - y` where `B = Bm1 + 1` is the (already clamped,
hence positive) per-page band height. -/
def bandsAux (height_px Bm1 : ℕ) (y : ℕ) : List ℕ :=
  if _h : y < height_px then
    (min height_px (y + (Bm1 + 1)) - y) ::
      bandsAux height_px Bm1 (min height_px (y + (Bm1 + 1)))
  else []
termination_by height_px - y
decreasing_by
  have h1 : y + 1 ≤ min height_px (y + (Bm1 + 1)) := le_min _h (by omega)
  omega

/-- The updated slice top after one loop iteration (`y_top_px = y_bottom_px`),
with the clamp `max(1, native_px_per_page)` from the source. -/
def nextSliceTop (height_px B y : ℕ) : ℕ := min height_px (y + max 1 B)

/-- The list of band pixel heights produced by `screenshot_to_paginated_letter_pdf`
when the computed `native_px_per_page` (before the clamp) is `B`. -/
def pageBandHeights (height_px B : ℕ) : List ℕ :=
  bandsAux height_px (max 1 B - 1) 0

/-- The function `screenshot_to_paginated_letter_pdf`: one Letter page per band. -/
def screenshot_to_paginated_letter_pdf (height_px B : ℕ) : List PdfPage :=
  (pageBandHeights height_px B).map (fun _ => letterPage)

lemma bandsAux_sum (height_px Bm1 : ℕ) :
    ∀ y, (bandsAux height_px Bm1 y).sum = height_px - y := by
  suffices h : ∀ n y, height_px - y = n → (bandsAux height_px Bm1 y).sum = height_px - y by
    intro y; exact h _ y rfl
  intro n
  induction n using Nat.strong_induction_on with
  | _ n ih =>
    intro y hy
    rw [bandsAux]
    split
    · next h =>
      have h1 : y + 1 ≤ min height_px (y + (Bm1 + 1)) := le_min h (by omega)
      have h2 : min height_px (y + (Bm1 + 1)) ≤ height_px := min_le_left _ _
      rw [List.sum_cons, ih (height_px - min height_px (y + (Bm1 + 1)))
        (by omega) _ rfl]
      omega
    · next h => simp; omega

lemma bandsAux_length (height_px Bm1 : ℕ) :
    ∀ y, (bandsAux height_px Bm1 y).length =
      (height_px - y + (Bm1 + 1) - 1) / (Bm1 + 1) := by
  suffices h : ∀ n y, height_px - y = n → (bandsAux height_px Bm1 y).length =
      (height_px - y + (Bm1 + 1) - 1) / (Bm1 + 1) by
    intro y; exact h _ y rfl
  intro n
  induction n using Nat.strong_induction_on with
  | _ n ih =>
    intro y hy
    rw [bandsAux]
    split
    · next h =>
      set m := min height_px (y + (Bm1 + 1)) with hm
      have h1 : y + 1 ≤ m := le_min h (by omega)
      have h2 : m ≤ height_px := min_le_left _ _
      have h3 : m ≤ y + (Bm1 + 1) := min_le_right _ _
      have h4 : m = height_px ∨ m = y + (Bm1 + 1) := min_choice _ _
      rw [List.length_cons, ih (height_px - m) (by omega) _ rfl]
      rcases h4 with h4 | h4
      · -- last band: `height_px - y ≤ Bm1 + 1`, so the quotient is 1
        have hle : height_px - y ≤ Bm1 + 1 := by omega
        have : (height_px - m + (Bm1 + 1) - 1) / (Bm1 + 1) = 0 :=
          Nat.div_eq_of_lt (by omega)
        rw [this]
        have : (height_px - y + (Bm1 + 1) - 1) / (Bm1 + 1) = 1 := by
          apply Nat.div_eq_of_lt_le <;> omega
        omega
      · -- full band: the remaining height drops by exactly `Bm1 + 1`
        have hrw : height_px - y + (Bm1 + 1) - 1
            = (height_px - m + (Bm1 + 1) - 1) + 1 * (Bm1 + 1) := by omega
        rw [hrw, Nat.add_mul_div_right _ _ (by omega : 0 < Bm1 + 1)]
    · next h =>
      simp
      rw [Nat.div_eq_of_lt (by omega)]

lemma bandsAux_length_le (height_px Bm1 : ℕ) :
    ∀ y, (bandsAux height_px Bm1 y).length ≤ height_px - y := by
  suffices h : ∀ n y, height_px - y = n →
      (bandsAux height_px Bm1 y).length ≤ height_px - y by
    intro y; exact h _ y rfl
  intro n
  induction n using Nat.strong_induction_on with
  | _ n ih =>
    intro y hy
    rw [bandsAux]
    split
    · next h =>
      have h1 : y + 1 ≤ min height_px (y + (Bm1 + 1)) := le_min h (by omega)
      have h2 : min height_px (y + (Bm1 + 1)) ≤ height_px := min_le_left _ _
      have := ih (height_px - min height_px (y + (Bm1 + 1))) (by omega)
        (min height_px (y + (Bm1 + 1))) rfl
      simp only [List.length_cons]
      omega
    · next h => simp

/-- Claim C1. For every bitmap of width at least 1 pixel and height `H` pixels,
`screenshot_to_paginated_letter_pdf` with the computed per-page band height
`B ≥ 1` slices the image into consecutive horizontal bands whose pixel
heights sum to exactly `H` and produces exactly `⌈H / B⌉` (Letter) pages;
and `screenshot_to_singlepage_pdf` produces a PDF with exactly one page
whose size equals the image size converted at `72/96 = 0.75` points per
CSS pixel. -/
theorem pagination_band_sum_and_page_counts (width_px height_px B : ℕ)
    (_hw : 1 ≤ width_px) (hB : 1 ≤ B) :
    (pageBandHeights height_px B).sum = height_px ∧
    (pageBandHeights height_px B).length = (height_px + B - 1) / B ∧
    (screenshot_to_paginated_letter_pdf height_px B).length = (height_px + B - 1) / B ∧
    (screenshot_to_singlepage_pdf width_px height_px).length = 1 ∧
    screenshot_to_singlepage_pdf width_px height_px =
      [((width_px : ℚ) * (72 / 96), (height_px : ℚ) * (72 / 96))] := by
  have hB1 : max 1 B - 1 + 1 = B := by omega
  have hlen : (pageBandHeights height_px B).length = (height_px + B - 1) / B := by
    unfold pageBandHeights
    rw [bandsAux_length, hB1]
    congr 1
  refine ⟨?_, hlen, ?_, rfl, rfl⟩
  · unfold pageBandHeights
    rw [bandsAux_sum]
    omega
  · unfold screenshot_to_paginated_letter_pdf
    rw [List.length_map, hlen]

/-- Witness for `pagination_band_sum_and_page_counts`: the spec scenario,
a 1366×5000 px bitmap with band height 1821 px (the value computed for a
Letter page with 0.5 in margins at width 1366), gives bands summing to
5000 over ⌈5000/1821⌉ = 3 pages. -/
theorem pagination_band_sum_and_page_counts_witness :
    (pageBandHeights 5000 1821).sum = 5000 ∧
    (pageBandHeights 5000 1821).length = (5000 + 1821 - 1) / 1821 ∧
    (5000 + 1821 - 1) / 1821 = 3 :=
  ⟨(pagination_band_sum_and_page_counts 1366 5000 1821 (by decide) (by decide)).1,
   (pagination_band_sum_and_page_counts 1366 5000 1821 (by decide) (by decide)).2.1,
   by decide⟩

/-- Claim C10. The band-slicing loop of `screenshot_to_paginated_letter_pdf`
terminates: the per-page band height is clamped to at least 1 pixel
(`max(1, native_px_per_page)`), so from any slice top `y < height` the next
slice top `min(height, y + max 1 B)` is strictly larger, the loop body
recurses exactly on that next top, and the number of produced bands is
bounded by the image height. -/
theorem band_loop_terminates (height_px B : ℕ) :
    1 ≤ max 1 B ∧
    (∀ y, y < height_px → y < nextSliceTop height_px B y) ∧
    (∀ y, y < height_px →
      bandsAux height_px (max 1 B - 1) y =
        (nextSliceTop height_px B y - y) ::
          bandsAux height_px (max 1 B - 1) (nextSliceTop height_px B y)) ∧
    (pageBandHeights height_px B).length ≤ height_px := by
  have hB1 : max 1 B - 1 + 1 = max 1 B := by omega
  refine ⟨le_max_left _ _, ?_, ?_, ?_⟩
  · intro y hy
    unfold nextSliceTop
    omega
  · intro y hy
    rw [bandsAux, dif_pos hy, hB1]
    rfl
  · have := bandsAux_length_le height_px (max 1 B - 1) 0
    unfold pageBandHeights
    omega

/-- Witness for `band_loop_terminates`: with height 5 and raw band height 0
(clamped to 1), slice top 3 strictly advances and the loop emits at most
5 bands. -/
theorem band_loop_terminates_witness :
    3 < nextSliceTop 5 0 3 ∧
    bandsAux 5 (max 1 0 - 1) 3 =
      (nextSliceTop 5 0 3 - 3) :: bandsAux 5 (max 1 0 - 1) (nextSliceTop 5 0 3) ∧
    (pageBandHeights 5 0).length ≤ 5 :=
  ⟨(band_loop_terminates 5 0).2.1 3 (by decide),
   (band_loop_terminates 5 0).2.2.1 3 (by decide),
   (band_loop_terminates 5 0).2.2.2⟩

/-! ## CaptchaDetector (`detect_captcha`)

The battery of checks that the script evaluates inside the page context.
A page snapshot records the document title, the visible body text, and
whether any selector/iframe pattern of each provider is present in the
DOM (`#cf-challenge`/`#challenge-form`/`#challenge-stage`/Cloudflare iframe;
reCAPTCHA iframe/`.g-recaptcha`; hCaptcha iframe). -/

structure PageSnapshot where
  title : Str
  bodyText : Str
  cfSelector : Bool
  recaptchaSelector : Bool
  hcaptchaSelector : Bool
deriving DecidableEq

structure CaptchaDetection where
  found : Bool
  provider : Str
  signals : List Str
deriving DecidableEq

/-- One conditional `signals.push(s)` of the detection script. -/
def sigIf (c : Bool) (s : Str) : List Str := if c then [s] else []

/-- The function `detect_captcha`: the heuristic classifier evaluated in page context. -/
def detect_captcha (p : PageSnapshot) : CaptchaDetection :=
  let title := lowerStr p.title
  let body := lowerStr p.bodyText
  let signals :=
    sigIf (isSubstr "verify you are human".toList body) "text: verify you are human".toList ++
    sigIf (isSubstr "i\x27m not a robot".toList body || isSubstr "im not a robot".toList body)
      "text: i\x27m not a robot".toList ++
    sigIf (isSubstr "checking your browser before accessing".toList body)
      "text: checking your browser".toList ++
    sigIf (isSubstr "complete the security check".toList body) "text: security check".toList ++
    sigIf (isSubstr "just a moment".toList title) "title: just a moment".toList ++
    sigIf (isSubstr "attention required".toList title) "title: attention required".toList ++
    sigIf (p.cfSelector || isSubstr "cloudflare".toList body) "cloudflare selectors".toList ++
    sigIf (p.recaptchaSelector || isSubstr "recaptcha".toList body) "recaptcha selectors".toList ++
    sigIf (p.hcaptchaSelector || isSubstr "hcaptcha".toList body) "hcaptcha selectors".toList
  let found := decide (0 < signals.length)
  let provider :=
    if signals.any (fun s => isSubstr "cloudflare".toList s) then "cloudflare".toList
    else if signals.any (fun s => isSubstr "recaptcha".toList s) then "recaptcha".toList
    else if signals.any (fun s => isSubstr "hcaptcha".toList s) then "hcaptcha".toList
    else if found then "generic".toList
    else "unknown".toList
  ⟨found, provider, signals⟩

/-- Claim C2, counterexample. A page whose visible body text is exactly
"checking your browser before accessing" (no title, no provider selectors)
is detected (`found = true`), but the provider is NOT `"cloudflare"`:
the collected signal string is `"text: checking your browser"`, which
contains none of the provider keywords, so the precedence chain falls
through to `"generic"`. -/
theorem detect_captcha_checking_browser_not_cloudflare :
    (detect_captcha ⟨"".toList, "checking your browser before accessing".toList,
        false, false, false⟩).found = true ∧
    (detect_captcha ⟨"".toList, "checking your browser before accessing".toList,
        false, false, false⟩).provider ≠ "cloudflare".toList := by
  decide

/-- Claim C2, amended. For every page whose visible body text contains the
phrase "checking your browser before accessing" and that carries no other
provider-keyword signal (no Cloudflare/reCAPTCHA/hCaptcha selector, and the
body text does not mention "cloudflare"/"recaptcha"/"hcaptcha"),
`detect_captcha` returns a detection with `found = true` and
`provider = "generic"`: the provider is assigned by the fixed precedence
cloudflare > recaptcha > hcaptcha > generic > unknown over the collected
signal strings, and the signal pushed for this phrase
(`"text: checking your browser"`) contains no provider keyword. -/
theorem detect_captcha_checking_browser_generic (p : PageSnapshot)
    (hphrase : isSubstr "checking your browser before accessing".toList (lowerStr p.bodyText) = true)
    (hcf : p.cfSelector = false)
    (hcfb : isSubstr "cloudflare".toList (lowerStr p.bodyText) = false)
    (hrc : p.recaptchaSelector = false)
    (hrcb : isSubstr "recaptcha".toList (lowerStr p.bodyText) = false)
    (hhc : p.hcaptchaSelector = false)
    (hhcb : isSubstr "hcaptcha".toList (lowerStr p.bodyText) = false) :
    (detect_captcha p).found = true ∧ (detect_captcha p).provider = "generic".toList := by
  cases hb1 : isSubstr "verify you are human".toList (lowerStr p.bodyText) <;>
    cases hb2 : (isSubstr "i\x27m not a robot".toList (lowerStr p.bodyText) ||
      isSubstr "im not a robot".toList (lowerStr p.bodyText)) <;>
    cases hb4 : isSubstr "complete the security check".toList (lowerStr p.bodyText) <;>
    cases hb5 : isSubstr "just a moment".toList (lowerStr p.title) <;>
    cases hb6 : isSubstr "attention required".toList (lowerStr p.title) <;>
    simp only [detect_captcha, hphrase, hcf, hcfb, hrc, hrcb, hhc, hhcb,
      hb1, hb2, hb4, hb5, hb6] <;>
    decide

/-- Witness for `detect_captcha_checking_browser_generic` at a concrete page. -/
theorem detect_captcha_checking_browser_generic_witness :
    (detect_captcha ⟨"Example Site".toList,
        "Checking your browser before accessing this site.".toList,
        false, false, false⟩).found = true ∧
    (detect_captcha ⟨"Example Site".toList,
        "Checking your browser before accessing this site.".toList,
        false, false, false⟩).provider = "generic".toList :=
  detect_captcha_checking_browser_generic _ (by decide) rfl (by decide) rfl (by decide)
    rfl (by decide)

/-! ## SiteRuleMatcher (`parse_site_rules`, `match_rules_for_host`)

`parse_site_rules` runs `re.finditer` with the block pattern

    @domain\s+(?P<domain>[^\s]+)\s+(?:CSS:\s*(?P<css>.*?))?(?:\s+JS:\s*(?P<js>.*?))?\s*@end

under `re.IGNORECASE | re.DOTALL`.  The pattern is embedded as a dedicated
backtracking matcher in continuation-passing style: greedy pieces try the
longest consumption first, lazy pieces the shortest, optional groups try
matching before skipping, and the scan emits leftmost non-overlapping
matches — the exact priority order of the Python `re` engine on this
pattern. -/

structure SiteRule where
  domain : Str
  css : Str
  js : Str
deriving DecidableEq

/-- The function `match_rules_for_host`: keep the rules whose domain (with leading dots
stripped) equals the lower-cased host or is a dot-separated suffix of it. -/
def match_rules_for_host (rules : List SiteRule) (host : Str) : List SiteRule :=
  let h := lowerStr host
  rules.filter fun r =>
    let d := r.domain.dropWhile (· = '.')
    decide (h = d) || strEndsWith h ('.' :: d)

/-- Case-insensitive literal match (`re.IGNORECASE` on ASCII): consume
`lit` from the front of the input, returning the remainder. -/
def litIC : Str → Str → Option Str
  | [], s => some s
  | _ :: _, [] => none
  | l :: ls, c :: cs => if lowerChar l = lowerChar c then litIC ls cs else none

/-- Greedy `p*`: try consuming the longest run of `p`-characters first. -/
def starGreedy {α : Type} (p : Char → Bool) (s : Str) (k : Str → Option α) : Option α :=
  let n := (s.takeWhile p).length
  ((List.range (n + 1)).map (fun j => n - j)).findSome? (fun i => k (s.drop i))

/-- Greedy `p+`: like `starGreedy` but consuming at least one character. -/
def plusGreedy {α : Type} (p : Char → Bool) (s : Str) (k : Str → Option α) : Option α :=
  let n := (s.takeWhile p).length
  ((List.range n).map (fun j => n - j)).findSome? (fun i => k (s.drop i))

/-- Greedy capturing `(p+)`: pass the captured run to the continuation. -/
def plusGreedyCap {α : Type} (p : Char → Bool) (s : Str) (k : Str → Str → Option α) :
    Option α :=
  let n := (s.takeWhile p).length
  ((List.range n).map (fun j => n - j)).findSome? (fun i => k (s.take i) (s.drop i))

/-- Lazy capturing `(.*?)` under DOTALL: try the shortest capture first. -/
def lazyStarCap {α : Type} (s : Str) (k : Str → Str → Option α) : Option α :=
  (List.range (s.length + 1)).findSome? (fun i => k (s.take i) (s.drop i))

/-- The optional group `(?:CSS:\s*(?P<css>.*?))?`: try to match it
(with all its internal backtracking), otherwise skip it. -/
def matchOptCss {α : Type} (s : Str) (k : Option Str → Str → Option α) : Option α :=
  (Option.bind (litIC "CSS:".toList s) fun s1 =>
    starGreedy isSpaceChar s1 fun s2 =>
    lazyStarCap s2 fun cap rest => k (some cap) rest).orElse
  (fun _ => k none s)

/-- The optional group `(?:\s+JS:\s*(?P<js>.*?))?`. -/
def matchOptJs {α : Type} (s : Str) (k : Option Str → Str → Option α) : Option α :=
  (plusGreedy isSpaceChar s fun s1 =>
    Option.bind (litIC "JS:".toList s1) fun s2 =>
    starGreedy isSpaceChar s2 fun s3 =>
    lazyStarCap s3 fun cap rest => k (some cap) rest).orElse
  (fun _ => k none s)

structure RuleMatch where
  domain : Str
  css : Option Str
  js : Option Str
  rest : Str
deriving DecidableEq

/-- Match the whole block pattern at the current position. -/
def matchSiteBlock (s : Str) : Option RuleMatch :=
  Option.bind (litIC "@domain".toList s) fun s1 =>
  plusGreedy isSpaceChar s1 fun s2 =>
  plusGreedyCap (fun c => !isSpaceChar c) s2 fun dom s3 =>
  plusGreedy isSpaceChar s3 fun s3b =>
  matchOptCss s3b fun css s4 =>
  matchOptJs s4 fun js s5 =>
  starGreedy isSpaceChar s5 fun s6 =>
  Option.map (fun rest => ⟨dom, css, js, rest⟩) (litIC "@end".toList s6)

/-- Python `re.finditer`: scan left to right, emitting non-overlapping matches and
resuming after each match.  `fuel` (instantiated with the input length)
bounds the scan; every step strictly shortens the input, so the bound is
never reached. -/
def scanBlocksFuel (fuel : ℕ) (s : Str) : List RuleMatch :=
  match fuel with
  | 0 => []
  | fuel + 1 =>
    match s with
    | [] => []
    | _ :: tail =>
      match matchSiteBlock s with
      | some m => m :: scanBlocksFuel fuel m.rest
      | none => scanBlocksFuel fuel tail

/-- The function `parse_site_rules`: parse `@domain …/CSS:/JS:/@end` blocks; each match
yields a `SiteRule` with stripped, lower-cased domain and stripped
(possibly absent, hence empty) CSS/JS sections. -/
def parse_site_rules (text : Str) : List SiteRule :=
  if pyStripWs text = [] then []
  else (scanBlocksFuel text.length text).map fun m =>
    ⟨lowerStr (pyStripWs m.domain), pyStripWs (m.css.getD []), pyStripWs (m.js.getD [])⟩

/-- Claim C3, counterexample. A canonically formatted block containing only a
JS section (`@domain example.com`, newline, `JS:`, the script, `@end`)
yields NO rule: the block pattern requires whitespace after the domain
token AND at least one further whitespace character before `JS:`, but a
single newline separates them, so the regex cannot match. -/
theorem parse_site_rules_js_only_block_yields_no_rule :
    parse_site_rules "@domain example.com\nJS:\nsomejs\n@end".toList = [] := by
  decide

/-- Claim C3, amended. A well-formed block containing only a CSS section
yields exactly one `SiteRule` whose `js` field is empty, and a block missing
its `@end` terminator yields no rule; but a block containing only a JS
section yields a rule (with empty `css`) only when at least two whitespace
characters separate the domain from `JS:` — with the canonical single
newline separator it yields no rule. -/
theorem parse_site_rules_optional_sections :
    parse_site_rules "@domain example.com\nCSS:\nsomecss\n@end".toList =
      [⟨"example.com".toList, "somecss".toList, []⟩] ∧
    parse_site_rules "@domain example.com\nCSS:\nsomecss\n".toList = [] ∧
    parse_site_rules "@domain example.com\nJS:\nsomejs\n@end".toList = [] ∧
    parse_site_rules "@domain example.com\n\nJS:\nsomejs\n@end".toList =
      [⟨"example.com".toList, [], "somejs".toList⟩] := by
  refine ⟨by decide, by decide, by decide, by decide⟩

/-- Claim C4, counterexample. Matching is NOT case-insensitive on the stored rule
domain: `match_rules_for_host` lower-cases only the host, so a rule stored
with domain `"Example.com"` does not even match the host `"Example.com"`
(whose lower-casing no longer equals the stored domain), although the claim
says a host matches a rule for its own domain case-insensitively. -/
theorem match_rules_not_case_insensitive_on_domain :
    match_rules_for_host [⟨"Example.com".toList, [], []⟩] "Example.com".toList = [] := by
  decide

/-- Claim C4, amended. `match_rules_for_host` returns exactly the rules such
that, after stripping leading dots from the stored rule domain, the lower-cased
host equals the domain or ends with `"." + domain`; the domain is compared
as stored, so matching is case-insensitive in the host (hosts with equal
lower-casings match the same rules) but case-insensitive in the domain only
when the stored domain is already lower-case, as `parse_site_rules`
guarantees.  Matching rules are returned in their original declaration
order, and host `"www.example.com"` matches a rule for `"example.com"`,
host `"notexample.com"` does not, and host `"example.com"` matches
itself. -/
theorem match_rules_for_host_characterization :
    (∀ (rules : List SiteRule) (host : Str) (r : SiteRule),
      r ∈ match_rules_for_host rules host ↔
        r ∈ rules ∧
          (lowerStr host = r.domain.dropWhile (· = '.') ∨
           strEndsWith (lowerStr host) ('.' :: r.domain.dropWhile (· = '.')) = true)) ∧
    (∀ (rules : List SiteRule) (host : Str),
      (match_rules_for_host rules host).Sublist rules) ∧
    (∀ (rules : List SiteRule) (host1 host2 : Str), lowerStr host1 = lowerStr host2 →
      match_rules_for_host rules host1 = match_rules_for_host rules host2) ∧
    match_rules_for_host [⟨"example.com".toList, [], []⟩] "www.example.com".toList =
      [⟨"example.com".toList, [], []⟩] ∧
    match_rules_for_host [⟨"example.com".toList, [], []⟩] "notexample.com".toList = [] ∧
    match_rules_for_host [⟨"example.com".toList, [], []⟩] "example.com".toList =
      [⟨"example.com".toList, [], []⟩] := by
  refine ⟨?_, ?_, ?_, by decide, by decide, by decide⟩
  · intro rules host r
    simp [match_rules_for_host, List.mem_filter]
  · intro rules host
    exact List.filter_sublist _
  · intro rules host1 host2 h
    unfold match_rules_for_host
    rw [h]

/-- Witness for `match_rules_for_host_characterization`: hosts that agree
after lower-casing select the same rules. -/
theorem match_rules_for_host_characterization_witness :
    match_rules_for_host [⟨"example.com".toList, [], []⟩] "WWW.Example.Com".toList =
      match_rules_for_host [⟨"example.com".toList, [], []⟩] "www.example.com".toList :=
  match_rules_for_host_characterization.2.2.1 _ _ _ (by decide)

/-! ## Output file naming (`sanitize_filename_component`, `url_to_filename`)

`url_to_filename` calls `urllib.parse.urlparse` and uses only the `netloc`
and `path` components; `urlparse` is embedded following the CPython
algorithm (scheme detection, `//`-netloc, fragment then query split, and
the `;`-params split for schemes that use parameters). -/

structure UrlParts where
  scheme : Str
  netloc : Str
  path : Str
  params : Str
  query : Str
  fragment : Str
deriving DecidableEq

/-- Split at the first occurrence of `sep`, which is removed. -/
def splitAtFirst (sep : Char) : Str → Option (Str × Str)
  | [] => none
  | c :: cs =>
    if c = sep then some ([], cs)
    else (splitAtFirst sep cs).map (fun q => (c :: q.1, q.2))

def isAsciiAlpha (c : Char) : Bool :=
  ('a' ≤ c && c ≤ 'z') || ('A' ≤ c && c ≤ 'Z')

/-- The characters allowed in a URL scheme (`urllib.parse.scheme_chars`). -/
def isSchemeChar (c : Char) : Bool :=
  isAsciiAlpha c || ('0' ≤ c && c ≤ '9') || c = '+' || c = '-' || c = '.'

/-- A character `netloc` extends up to (`/`, `?` or `#` terminate it). -/
def isNetlocChar (c : Char) : Bool := !(c = '/' || c = '?' || c = '#')

/-- Python `urllib.parse.urlsplit` (without params splitting). -/
def urlsplit (url : Str) : UrlParts :=
  let url := url.filter (fun c => !(c = '\t' || c = '\r' || c = '\n'))
  let schemeRest : Str × Str :=
    match splitAtFirst ':' url with
    | some (before, after) =>
      if (match before with | c :: _ => isAsciiAlpha c | [] => false)
          && before.all isSchemeChar then
        (lowerStr before, after)
      else ([], url)
    | none => ([], url)
  let netlocRest : Str × Str :=
    match schemeRest.2 with
    | '/' :: '/' :: r => (r.takeWhile isNetlocChar, r.dropWhile isNetlocChar)
    | u => ([], u)
  let restFragment : Str × Str :=
    match splitAtFirst '#' netlocRest.2 with
    | some (a, b) => (a, b)
    | none => (netlocRest.2, [])
  let pathQuery : Str × Str :=
    match splitAtFirst '?' restFragment.1 with
    | some (a, b) => (a, b)
    | none => (restFragment.1, [])
  ⟨schemeRest.1, netlocRest.1, pathQuery.1, [], pathQuery.2, restFragment.2⟩

/-- The schemes for which `urlparse` splits `;`-parameters
(`urllib.parse.uses_params`). -/
def usesParams : List Str :=
  ["", "ftp", "hdl", "prospero", "http", "imap", "https", "shttp", "rtsp",
   "rtspu", "sip", "sips", "mms", "sftp", "tel"].map String.toList

/-- Python `urllib.parse._splitparams`: split `;params` off the last path segment. -/
def splitparams (url : Str) : Str × Str :=
  let searchArea := if url.contains '/' then (url.reverse.takeWhile (· ≠ '/')).reverse else url
  match splitAtFirst ';' searchArea with
  | none => (url, [])
  | some (a, b) => (url.take (url.length - searchArea.length) ++ a, b)

/-- Python `urllib.parse.urlparse`. -/
def urlparse (url : Str) : UrlParts :=
  let u := urlsplit url
  if u.scheme ∈ usesParams && u.path.contains ';' then
    let pp := splitparams u.path
    { u with path := pp.1, params := pp.2 }
  else u

/-- The character class `[<>:"/\\|?*\x00-\x1F]` of `sanitize_filename_component`. -/
def isIllegalChar (c : Char) : Bool :=
  c = '<' || c = '>' || c = ':' || c = '"' || c = '/' || c = '\\' ||
  c = '|' || c = '?' || c = '*' || decide (c.toNat ≤ 31)

/-- Worker for `subRuns`: `inRun` records whether the previous character
belonged to a `p`-run (whose underscore has already been emitted). -/
def subRunsGo (p : Char → Bool) : Bool → Str → Str
  | _, [] => []
  | inRun, c :: cs =>
    if p c then
      if inRun then subRunsGo p true cs else '_' :: subRunsGo p true cs
    else c :: subRunsGo p false cs

/-- Python `re.sub` of the one-or-more repetition of a character class by `"_"`:
every maximal run of `p`-characters becomes a single underscore. -/
def subRuns (p : Char → Bool) (s : Str) : Str := subRunsGo p false s

/-- The function `sanitize_filename_component`: strip, replace illegal runs by `_`,
collapse `_` runs, strip `_`, and fall back to `"file"`. -/
def sanitize_filename_component (s : Str) : Str :=
  let s1 := pyStripWs s
  let s2 := subRuns isIllegalChar s1
  let s3 := subRuns (· = '_') s2
  let s4 := pyStripChar '_' s3
  if s4 = [] then "file".toList else s4

/-- The host component of the base name: empty netloc becomes `"site"`,
dots become underscores. -/
def hostPart (netloc : Str) : Str :=
  replaceChar '.' '_' (if netloc = [] then "site".toList else netloc)

/-- The path component of the base name: an empty or `/` path is treated
as `/index.html`, a trailing slash is removed, leading slashes are
stripped, and slashes and dots become underscores. -/
def pathPartOf (path : Str) : Str :=
  let path0 := if path = [] then "/".toList else path
  let path1 := if strEndsWith path0 "/".toList then path0.dropLast else path0
  let path2 := if path1 = [] then "/index.html".toList else path1
  let path3 := path2.dropWhile (· = '/')
  replaceChar '.' '_' (replaceChar '/' '_' path3)

/-- The raw `f"{host}_{path_part}"` base of `url_to_filename`, before
sanitisation. -/
def filenameBase (netloc path : Str) : Str :=
  if pathPartOf path = [] then hostPart netloc
  else hostPart netloc ++ '_' :: pathPartOf path

/-- The body of `url_to_filename` after URL parsing: it uses only the
`netloc` and `path` components of the parse. -/
def filenameFromParts (netloc path : Str) : Str :=
  let base2 := sanitize_filename_component (filenameBase netloc path)
  if strEndsWith (lowerStr base2) ".pdf".toList then base2 else base2 ++ ".pdf".toList

/-- The function `url_to_filename`: derive `example_com_a_b_html.pdf`-style names. -/
def url_to_filename (url : Str) : Str :=
  filenameFromParts (urlparse url).netloc (urlparse url).path

lemma mem_dropTrailing {p : Char → Bool} {s : Str} {c : Char}
    (h : c ∈ dropTrailing p s) : c ∈ s := by
  unfold dropTrailing at h
  rw [List.mem_reverse] at h
  have h2 := (List.dropWhile_sublist p).subset h
  rwa [List.mem_reverse] at h2

lemma mem_pyStripWs {s : Str} {c : Char} (h : c ∈ pyStripWs s) : c ∈ s := by
  unfold pyStripWs at h
  exact (List.dropWhile_sublist _).subset (mem_dropTrailing h)

lemma mem_pyStripChar {d : Char} {s : Str} {c : Char} (h : c ∈ pyStripChar d s) : c ∈ s := by
  unfold pyStripChar at h
  exact (List.dropWhile_sublist _).subset (mem_dropTrailing h)

lemma mem_subRunsGo (p : Char → Bool) :
    ∀ (l : Str) (b : Bool) (c : Char), c ∈ subRunsGo p b l →
      c = '_' ∨ (c ∈ l ∧ p c = false) := by
  intro l
  induction l with
  | nil =>
    intro b c h
    simp [subRunsGo] at h
  | cons a as ih =>
    intro b c h
    rw [subRunsGo] at h
    by_cases hp : p a
    · rw [if_pos hp] at h
      cases b with
      | true =>
        rcases ih true c h with h1 | ⟨h1, h2⟩
        · exact Or.inl h1
        · exact Or.inr ⟨List.mem_cons_of_mem _ h1, h2⟩
      | false =>
        rw [if_neg (by simp)] at h
        rcases List.mem_cons.mp h with h1 | h1
        · exact Or.inl h1
        · rcases ih true c h1 with h2 | ⟨h2, h3⟩
          · exact Or.inl h2
          · exact Or.inr ⟨List.mem_cons_of_mem _ h2, h3⟩
    · rw [if_neg hp] at h
      rcases List.mem_cons.mp h with h1 | h1
      · subst h1
        exact Or.inr ⟨List.mem_cons_self _ _, by simpa using hp⟩
      · rcases ih false c h1 with h2 | ⟨h2, h3⟩
        · exact Or.inl h2
        · exact Or.inr ⟨List.mem_cons_of_mem _ h2, h3⟩

lemma mem_subRuns (p : Char → Bool) (l : Str) (c : Char) (h : c ∈ subRuns p l) :
    c = '_' ∨ (c ∈ l ∧ p c = false) :=
  mem_subRunsGo p l false c h

lemma sanitize_no_illegal (s : Str) (c : Char) (h : c ∈ sanitize_filename_component s) :
    isIllegalChar c = false := by
  simp only [sanitize_filename_component] at h
  split at h
  · -- the "file" fallback
    have h4 : c = 'f' ∨ c = 'i' ∨ c = 'l' ∨ c = 'e' := by simpa using h
    rcases h4 with h4 | h4 | h4 | h4 <;> subst h4 <;> decide
  · have h3 := mem_pyStripChar h
    rcases mem_subRuns _ _ _ h3 with h1 | ⟨h1, _⟩
    · subst h1; decide
    · rcases mem_subRuns _ _ _ h1 with h2 | ⟨_, h2⟩
      · subst h2; decide
      · exact h2

lemma sanitize_no_dot (s : Str) (h : ('.' : Char) ∉ s) :
    ('.' : Char) ∉ sanitize_filename_component s := by
  intro hmem
  simp only [sanitize_filename_component] at hmem
  split at hmem
  · simp at hmem
  · have h3 := mem_pyStripChar hmem
    rcases mem_subRuns _ _ _ h3 with h1 | ⟨h1, _⟩
    · exact absurd h1 (by decide)
    · rcases mem_subRuns _ _ _ h1 with h2 | ⟨h2, _⟩
      · exact absurd h2 (by decide)
      · exact h (mem_pyStripWs h2)

lemma notMem_replaceChar {old new : Char} (hne : old ≠ new) (t : Str) :
    old ∉ replaceChar old new t := by
  intro h
  unfold replaceChar at h
  rcases List.mem_map.mp h with ⟨d, _, hd⟩
  by_cases hdo : d = old
  · rw [if_pos hdo] at hd
    exact hne hd.symm
  · rw [if_neg hdo] at hd
    exact hdo hd

lemma lowerChar_eq_dot {c : Char} (h : lowerChar c = '.') : c = '.' := by
  unfold lowerChar at h
  split at h
  · next hc =>
    exfalso
    have h2 : c.toNat + 32 = 46 := congrArg Char.toNat h
    omega
  · exact h

lemma strEndsWith_append (s suffix : Str) : strEndsWith (s ++ suffix) suffix = true := by
  unfold strEndsWith
  have h2 : (s ++ suffix).length - suffix.length = s.length := by simp
  rw [h2, List.drop_left]
  simp

lemma not_endsWith_pdf_of_no_dot (s : Str) (h : ('.' : Char) ∉ s) :
    strEndsWith (lowerStr s) ".pdf".toList = false := by
  cases hb : strEndsWith (lowerStr s) ".pdf".toList with
  | false => rfl
  | true =>
    exfalso
    unfold strEndsWith at hb
    rw [Bool.and_eq_true, decide_eq_true_eq, decide_eq_true_eq] at hb
    have hmem : ('.' : Char) ∈ (lowerStr s).drop ((lowerStr s).length - ".pdf".toList.length) := by
      rw [hb.2]
      simp
    have hmem2 : ('.' : Char) ∈ lowerStr s := List.drop_subset _ _ hmem
    rcases List.mem_map.mp hmem2 with ⟨d, hd, hde⟩
    rw [lowerChar_eq_dot hde] at hd
    exact h hd

lemma hostPart_no_dot (netloc : Str) : ('.' : Char) ∉ hostPart netloc :=
  notMem_replaceChar (show ('.' : Char) ≠ '_' by decide) _

lemma pathPartOf_no_dot (path : Str) : ('.' : Char) ∉ pathPartOf path := by
  simp only [pathPartOf]
  exact notMem_replaceChar (show ('.' : Char) ≠ '_' by decide) _

lemma filenameBase_no_dot (netloc path : Str) : ('.' : Char) ∉ filenameBase netloc path := by
  intro h
  simp only [filenameBase] at h
  split at h
  · exact hostPart_no_dot netloc h
  · rcases List.mem_append.mp h with h1 | h1
    · exact hostPart_no_dot netloc h1
    · rcases List.mem_cons.mp h1 with h2 | h2
      · exact absurd h2 (by decide)
      · exact pathPartOf_no_dot path h2

lemma filenameFromParts_eq (netloc path : Str) :
    filenameFromParts netloc path =
      sanitize_filename_component (filenameBase netloc path) ++ ".pdf".toList := by
  simp only [filenameFromParts]
  rw [not_endsWith_pdf_of_no_dot _ (sanitize_no_dot _ (filenameBase_no_dot netloc path))]
  simp

/-- Claim C5. `url_to_filename` is deterministic (equal URLs yield equal
names), always ends with `".pdf"`, never contains a character from the
illegal class `<>:"/\|?*` or a control character, and maps
`https://example.com/a/b.html?x=1` to `example_com_a_b_html.pdf`. -/
theorem url_to_filename_wellformed :
    (∀ u v : Str, u = v → url_to_filename u = url_to_filename v) ∧
    (∀ u : Str, strEndsWith (url_to_filename u) ".pdf".toList = true) ∧
    (∀ (u : Str) (c : Char), c ∈ url_to_filename u → isIllegalChar c = false) ∧
    url_to_filename "https://example.com/a/b.html?x=1".toList =
      "example_com_a_b_html.pdf".toList := by
  refine ⟨fun u v h => by rw [h], ?_, ?_, by decide⟩
  · intro u
    rw [url_to_filename, filenameFromParts_eq]
    exact strEndsWith_append _ _
  · intro u c hc
    rw [url_to_filename, filenameFromParts_eq] at hc
    rcases List.mem_append.mp hc with h | h
    · exact sanitize_no_illegal _ _ h
    · have h4 : c = '.' ∨ c = 'p' ∨ c = 'd' ∨ c = 'f' := by simpa using h
      rcases h4 with h4 | h4 | h4 | h4 <;> subst h4 <;> decide

/-- Witness for `url_to_filename_wellformed` at a concrete URL. -/
theorem url_to_filename_wellformed_witness :
    url_to_filename "https://a.com/x".toList = url_to_filename "https://a.com/x".toList :=
  url_to_filename_wellformed.1 _ _ rfl

/-- Claim C9. `url_to_filename` depends only on the parsed `netloc` and
`path`, so URLs that differ only in query or fragment map to the same
output name; an empty or `/` path is treated exactly as `/index.html`;
and an empty host is replaced by `"site"`. -/
theorem url_to_filename_ignores_query_fragment :
    (∀ u v : Str,
      (urlparse u).netloc = (urlparse v).netloc →
      (urlparse u).path = (urlparse v).path →
      url_to_filename u = url_to_filename v) ∧
    (∀ netloc : Str,
      filenameFromParts netloc [] = filenameFromParts netloc "/index.html".toList ∧
      filenameFromParts netloc "/".toList = filenameFromParts netloc "/index.html".toList) ∧
    (∀ path : Str, filenameFromParts [] path = filenameFromParts "site".toList path) ∧
    url_to_filename "https://example.com/a/b.html?x=1".toList =
      url_to_filename "https://example.com/a/b.html#frag".toList := by
  refine ⟨?_, fun netloc => ⟨rfl, rfl⟩, fun path => rfl, by decide⟩
  intro u v h1 h2
  rw [url_to_filename, url_to_filename, h1, h2]

/-- Witness for `url_to_filename_ignores_query_fragment`: two URLs that
differ only in query and fragment get the same name. -/
theorem url_to_filename_ignores_query_fragment_witness :
    url_to_filename "https://example.com/a?x=1".toList =
      url_to_filename "https://example.com/a?y=2#z".toList :=
  url_to_filename_ignores_query_fragment.1 _ _ (by decide) (by decide)

/-! ## CaptureOrchestrator (`capture_one`)

`capture_one` drives one URL through navigation, CAPTCHA detection, the
human handoff episode and the capture strategies.  Its external effects
(navigation, browser/session creation, the human decision, the print
engine, screenshots) are modelled by an oracle environment recording the
outcome of each effect; the embedding mirrors the control flow of the source —
which exceptions are caught where, when the visible (headful) session is
closed, and which strategy produces the output — and reports the returned
path or propagated exception together with how many times the visible
session was opened and closed. -/

inductive NavOutcome
  /-- `page.goto` completed. -/
  | ok
  /-- `page.goto` raised `PlaywrightTimeout` (caught: capture proceeds). -/
  | timeout
  /-- `page.goto` raised a non-timeout error (not caught). -/
  | err
deriving DecidableEq

inductive HumanDecision
  /-- The human clicked "Solved — Continue" (`action == "continue"`). -/
  | cont
  /-- Any other decision, including "Skip URL". -/
  | skip
deriving DecidableEq

inductive CaptureMode | screenshot | print
deriving DecidableEq

/-- Outcomes of the external effects performed by `capture_one`, in source
order.  A `false`/`err` value means the corresponding awaited operation
raises. -/
structure CaptureEnv where
  /-- First `page.goto` on the primary (headless) page. -/
  nav : NavOutcome
  /-- `detect_captcha(page)["found"]` (detection itself never raises). -/
  detFound : Bool
  /-- `playwright.chromium.launch(headless=False)`. -/
  launchOk : Bool
  /-- `aux_browser.new_context(...)`. -/
  newContextOk : Bool
  /-- `aux_ctx.new_page()`. -/
  newPageOk : Bool
  /-- The human decision delivered through the dialog. -/
  decision : HumanDecision
  /-- The `try page.goto; det2 = detect_captcha` block after a solve
  (on failure the code sets `det2 = found`). -/
  renavDetectOk : Bool
  /-- `det2["found"]` when the re-navigation block succeeded. -/
  det2Found : Bool
  /-- The whole guarded print attempt after a solve
  (`prepare_page_for_capture` … `page.pdf`). -/
  auxPrintOk : Bool
  /-- The guarded screenshot-from-solved-window attempt
  (`prepare_page_for_capture(aux_page)` … PDF build). -/
  auxShotOk : Bool
  /-- `page.emulate_media(media="screen")` on the headless path (unguarded). -/
  emulateOk : Bool
  /-- The content-height `page.evaluate` on the headless path (unguarded). -/
  heightEvalOk : Bool
  /-- The guarded `page.pdf` on the headless path. -/
  printPdfOk : Bool
  /-- `page.screenshot` plus raster-PDF build on the headless path. -/
  rasterOk : Bool
  /-- The timestamp used by `default_timestamped_name`. -/
  tsName : Str
deriving DecidableEq

/-- The source of a propagated exception. -/
inductive CaptureErr
  | navError | launchError | newContextError | newPageError
  | emulateError | heightEvalError | rasterError | bothStrategiesError
deriving DecidableEq

/-- A normal return (with the output path) or a propagated exception. -/
inductive CaptureResult
  | ok (path : Str)
  | error (e : CaptureErr)
deriving DecidableEq

/-- Result of one `capture_one` call: the returned output path or the
propagated exception, plus how many times the visible (headful) session
was opened and closed. -/
structure CaptureOutcome where
  result : CaptureResult
  auxOpened : ℕ
  auxClosed : ℕ
deriving DecidableEq

structure CaptureOpts where
  mode : CaptureMode
  exact_single_page : Bool
  filename_from_url : Bool
deriving DecidableEq

/-- The function `default_timestamped_name`: `f"{sanitize_filename_component(url)}_{ts}.pdf"`. -/
def default_timestamped_name (ts url : Str) : Str :=
  sanitize_filename_component url ++ '_' :: (ts ++ ".pdf".toList)

/-- The headless capture tail of `capture_one` (lines after the handoff
block): screenshot mode uses the raster strategy alone; print mode runs
the unguarded `emulate_media` and (in exact-single-page mode) the
unguarded content-height evaluation, then tries `page.pdf` and falls back
to the raster strategy only on `page.pdf` failure. -/
def headlessCapture (e : CaptureEnv) (o : CaptureOpts) (path : Str)
    (opened closed : ℕ) : CaptureOutcome :=
  match o.mode with
  | .screenshot =>
    if e.rasterOk then ⟨.ok path, opened, closed⟩
    else ⟨.error .rasterError, opened, closed⟩
  | .print =>
    if e.emulateOk = false then ⟨.error .emulateError, opened, closed⟩
    else if o.exact_single_page = true ∧ e.heightEvalOk = false then
      ⟨.error .heightEvalError, opened, closed⟩
    else if e.printPdfOk then ⟨.ok path, opened, closed⟩
    else if e.rasterOk then ⟨.ok path, opened, closed⟩
    else ⟨.error .bothStrategiesError, opened, closed⟩

/-- The function `capture_one`: the per-URL state machine. -/
def capture_one (e : CaptureEnv) (o : CaptureOpts) (url : Str) : CaptureOutcome :=
  let path := if o.filename_from_url then url_to_filename url
              else default_timestamped_name e.tsName url
  match e.nav with
  | .err => ⟨.error .navError, 0, 0⟩
  | _ =>
    if e.detFound then
      if e.launchOk = false then ⟨.error .launchError, 0, 0⟩
      else if e.newContextOk = false then ⟨.error .newContextError, 1, 0⟩
      else if e.newPageOk = false then ⟨.error .newPageError, 1, 0⟩
      else
        match e.decision with
        | .skip =>
          -- close the visible session, then proceed with the primary page
          headlessCapture e o path 1 1
        | .cont =>
          let det2Found := if e.renavDetectOk then e.det2Found else true
          if o.mode = CaptureMode.print ∧ det2Found = false ∧ e.auxPrintOk = true then
            ⟨.ok path, 1, 1⟩
          else if e.auxShotOk then ⟨.ok path, 1, 1⟩
          else headlessCapture e o path 1 1
    else headlessCapture e o path 0 0

/-- Replace the navigation outcome of an environment. -/
def setNav (e : CaptureEnv) (n : NavOutcome) : CaptureEnv :=
  ⟨n, e.detFound, e.launchOk, e.newContextOk, e.newPageOk, e.decision,
   e.renavDetectOk, e.det2Found, e.auxPrintOk, e.auxShotOk, e.emulateOk,
   e.heightEvalOk, e.printPdfOk, e.rasterOk, e.tsName⟩

/-- Whether the call returned normally. -/
def resultOk : CaptureResult → Bool
  | .ok _ => true
  | .error _ => false

lemma headlessCapture_ok (e : CaptureEnv) (o : CaptureOpts) (path : Str)
    (opened closed : ℕ)
    (hshot : o.mode = CaptureMode.screenshot → e.rasterOk = true)
    (hprint : o.mode = CaptureMode.print →
      e.emulateOk = true ∧ (o.exact_single_page = true → e.heightEvalOk = true) ∧
        (e.printPdfOk = true ∨ e.rasterOk = true)) :
    headlessCapture e o path opened closed = ⟨.ok path, opened, closed⟩ := by
  unfold headlessCapture
  cases hm : o.mode with
  | screenshot =>
    rw [hshot hm]
    simp
  | print =>
    obtain ⟨he, hh, hpr⟩ := hprint hm
    rw [he]
    have hcond : ¬(o.exact_single_page = true ∧ e.heightEvalOk = false) := by
      rintro ⟨hex, hhe⟩
      rw [hh hex] at hhe
      cases hhe
    rw [if_neg (by decide : ¬(true = false)), if_neg hcond]
    rcases hpr with hp | hr
    · rw [hp]
      simp
    · cases hpp : e.printPdfOk with
      | true => simp
      | false =>
        rw [hr]
        simp

/-- Claim C6. In a handoff episode where the human decision is `skip`,
`capture_one` raises nothing from the handoff itself: it closes the
visible session (exactly once) and proceeds to capture from the primary
session as-is, still producing an output file at the deterministic path
`url_to_filename url` (which may depict the gated page), provided the
ordinary primary-session capture itself succeeds. -/
theorem capture_one_skip_proceeds (e : CaptureEnv) (o : CaptureOpts) (url : Str)
    (hnav : e.nav ≠ NavOutcome.err)
    (hdet : e.detFound = true)
    (hl : e.launchOk = true) (hc : e.newContextOk = true) (hp : e.newPageOk = true)
    (hskip : e.decision = HumanDecision.skip)
    (hfu : o.filename_from_url = true)
    (hshot : o.mode = CaptureMode.screenshot → e.rasterOk = true)
    (hprint : o.mode = CaptureMode.print →
      e.emulateOk = true ∧ (o.exact_single_page = true → e.heightEvalOk = true) ∧
        (e.printPdfOk = true ∨ e.rasterOk = true)) :
    capture_one e o url = ⟨CaptureResult.ok (url_to_filename url), 1, 1⟩ := by
  unfold capture_one
  cases hn : e.nav with
  | err => exact absurd hn hnav
  | ok =>
    simp only [hdet, hl, hc, hp, hskip, hfu, if_true]
    exact headlessCapture_ok e o _ 1 1 hshot hprint
  | timeout =>
    simp only [hdet, hl, hc, hp, hskip, hfu, if_true]
    exact headlessCapture_ok e o _ 1 1 hshot hprint

def envSkip : CaptureEnv :=
  ⟨.ok, true, true, true, true, .skip, true, false, true, true, true, true, true, true, []⟩

def optsShot : CaptureOpts := ⟨.screenshot, true, true⟩

/-- Witness for `capture_one_skip_proceeds`: a concrete skip episode in
screenshot mode ends with the output written and the visible session
closed once. -/
theorem capture_one_skip_proceeds_witness :
    capture_one envSkip optsShot "https://example.com/a".toList =
      ⟨CaptureResult.ok (url_to_filename "https://example.com/a".toList), 1, 1⟩ :=
  capture_one_skip_proceeds envSkip optsShot _ (by decide) rfl rfl rfl rfl rfl rfl
    (fun _ => rfl) (fun h => absurd h (by decide))

/-- Claim C7, code-bug evidence. A handoff episode in which
`aux_browser.new_context(...)` raises (for instance because the visible
browser crashed right after launching) propagates the exception with the
visible browser opened once and closed zero times: the source has no
`finally`-style cleanup between `launch` and the guarded close calls, so
on this exit path the visible session is not closed exactly once. -/
theorem capture_one_newContext_failure_leaks_visible_session :
    capture_one
        ⟨NavOutcome.ok, true, true, false, true, HumanDecision.cont, true, false,
         true, true, true, true, true, true, []⟩
        ⟨CaptureMode.print, true, true⟩ "https://example.com/a".toList =
      ⟨CaptureResult.error CaptureErr.newContextError, 1, 0⟩ := by
  decide

/-- Claim C8. On the no-challenge print path, a navigation timeout is not
fatal (the outcome is identical to a completed navigation), and the call
returns normally exactly when the print strategy succeeds or the raster
screenshot fallback succeeds — so `capture_one` fails only when both the
print strategy and the raster fallback fail for the same URL. -/
theorem capture_one_print_fallback (e : CaptureEnv) (o : CaptureOpts) (url : Str)
    (hmode : o.mode = CaptureMode.print)
    (hdet : e.detFound = false)
    (hnav : e.nav ≠ NavOutcome.err)
    (hem : e.emulateOk = true)
    (hh : e.heightEvalOk = true) :
    resultOk (capture_one e o url).result = (e.printPdfOk || e.rasterOk) ∧
    capture_one (setNav e NavOutcome.timeout) o url =
      capture_one (setNav e NavOutcome.ok) o url := by
  constructor
  · have hcore : ∀ path opened closed,
        resultOk (headlessCapture e o path opened closed).result =
          (e.printPdfOk || e.rasterOk) := by
      intro path opened closed
      unfold headlessCapture
      rw [hmode]
      rw [hem]
      have hcond : ¬(o.exact_single_page = true ∧ e.heightEvalOk = false) := by
        rintro ⟨_, hhe⟩
        rw [hh] at hhe
        cases hhe
      rw [if_neg (by decide : ¬(true = false)), if_neg hcond]
      cases hpp : e.printPdfOk <;> cases hrr : e.rasterOk <;> simp [resultOk]
    unfold capture_one
    cases hn : e.nav with
    | err => exact absurd hn hnav
    | ok =>
      simp only [hdet]
      simp only [Bool.false_eq_true, if_false]
      exact hcore _ 0 0
    | timeout =>
      simp only [hdet]
      simp only [Bool.false_eq_true, if_false]
      exact hcore _ 0 0
  · rfl

def envPrintFalls : CaptureEnv :=
  ⟨.ok, false, true, true, true, .cont, true, false, true, true, true, true, false, true, []⟩

def optsPrint : CaptureOpts := ⟨.print, true, true⟩

/-- Witness for `capture_one_print_fallback`: with `page.pdf` failing and
the raster fallback succeeding, the call still returns normally, and a
navigation timeout changes nothing. -/
theorem capture_one_print_fallback_witness :
    resultOk (capture_one envPrintFalls optsPrint "https://example.com/b".toList).result =
      (envPrintFalls.printPdfOk || envPrintFalls.rasterOk) ∧
    capture_one (setNav envPrintFalls NavOutcome.timeout) optsPrint
        "https://example.com/b".toList =
      capture_one (setNav envPrintFalls NavOutcome.ok) optsPrint
        "https://example.com/b".toList :=
  capture_one_print_fallback envPrintFalls optsPrint _ rfl rfl (by decide) rfl rfl

end Web2Pdf
